import Mathlib

/-!
Verification of the acastaway feed-caching service (src/main.ts, src/acast.ts).

The development shallowly embeds the parts of src/main.ts that the spec's
claims are about:

* the per-show generation map `cache_timestamps : Map<string, number>`
  (reads `cache_timestamps.get(id) || 0`, writes
  `cache_timestamps.set(id, Date.now())`) — modelled as `GenMap` with
  `current` and `bump`, where the wall-clock reading `Date.now()` is an
  explicit input `now : ℕ`;
* the cache-name template `` `${id}-t${timestamp}` `` — modelled as
  `cacheName`, with JavaScript's decimal rendering of an integer modelled
  by the fuel-structural `nat_to_string`;
* the `paginate` helper (`items.slice((page-1)*limit, (page-1)*limit+limit)`);
* the zod `pagination_schema`
  (`page: z.coerce.number().min(1).default(1)`,
   `limit: z.coerce.number().positive().default(10)`) — modelled over the
  codomain of JavaScript's `Number` coercion (`NaN` or a rational);
* the hono `cache` middleware wrapping `app.get("/:id")`: entries live in
  the named cache `caches.open(cacheName(c))` and are matched by the full
  request URL (path + query string), so a stored entry is addressed by
  (cache name, id, query);
* the webhook handler `app.post("")` with its
  `body.audioUrl.split("/shows/").pop().split("/")[0]` derivation —
  JavaScript's `String.split` (non-empty separator) is modelled by the
  fuel-structural `js_split`;
* the direct invalidation handler `app.post("/:id")`;
* the single-episode route `app.get("/:id/:id_or_slug")`, which issues an
  internal query-less feed request and searches the resulting page.
-/

/-- The generation store: `cache_timestamps : Map<string, number>`
(src/main.ts line 26).  `none` models an absent map entry. -/
abbrev GenMap := String → Option ℕ

/-- `cache_timestamps.get(id) || 0` (src/main.ts line 147): the current
generation marker of a show, `0` for an absent entry. -/
def current (gens : GenMap) (id : String) : ℕ :=
  (gens id).getD 0

/-- `cache_timestamps.set(id, Date.now())` (src/main.ts lines 48, 65, 93):
set the show's marker to the wall-clock reading `now`. -/
def bump (gens : GenMap) (id : String) (now : ℕ) : GenMap :=
  fun k => if k = id then some now else gens k

/-- Decimal digit characters of `n`, most significant first, computed with
structural fuel (`fuel > n` suffices: the argument drops to `n / 10` each
step).  Models JavaScript's decimal rendering of a non-negative integer. -/
def to_dec_go : ℕ → ℕ → List Char
  | 0, _ => []
  | fuel + 1, n =>
    if n < 10 then [Nat.digitChar n]
    else to_dec_go fuel (n / 10) ++ [Nat.digitChar (n % 10)]

/-- JavaScript's `${n}` decimal rendering of a non-negative integer. -/
def nat_to_string (n : ℕ) : String :=
  (to_dec_go (n + 1) n).asString

/-- The cache-name template `` `${id}-t${timestamp}` `` (src/main.ts
line 148). -/
def cacheName (id : String) (ts : ℕ) : String :=
  id ++ "-t" ++ nat_to_string ts

/-- A parsed pagination query (`page`, `limit`).  The request URL of
`GET /:id` is modelled as the pair (id, query), since the query string is
part of the URL the hono cache middleware matches on. -/
structure PQ where
  page : ℕ
  limit : ℕ
deriving DecidableEq

/-- The cache key computed while serving a request for show `id` with
query `q`: the middleware's `cacheName` callback (src/main.ts lines
145-149) reads only the `id` path parameter and the generation map — the
query is available on the context but never consulted. -/
def key_for (gens : GenMap) (id : String) (_q : PQ) : String :=
  cacheName id (current gens id)

/-- `items.slice(start, end)` for `0 ≤ start ≤ end`: the elements from
index `start` up to (excluding) `end`, clamped to the list's bounds. -/
def list_slice (l : List α) (start stop : ℕ) : List α :=
  (l.drop start).take (stop - start)

/-- The `paginate` helper (src/main.ts lines 34-38):
`start = (page - 1) * limit`, `end = start + limit`,
`items.slice(start, end)`.  A total pure function. -/
def paginate (items : List α) (page limit : ℕ) : List α :=
  list_slice items ((page - 1) * limit) ((page - 1) * limit + limit)

/-- Scanner for JavaScript's `String.split` with a non-empty separator:
`acc` is the segment accumulated so far; whenever `sep` is a prefix of the
remainder the segment is cut and the separator skipped.  `fuel ≥ length`
suffices because each step consumes at least one character. -/
def split_go (sep : List Char) : ℕ → List Char → List Char → List (List Char)
  | 0, rest, acc => [acc ++ rest]
  | fuel + 1, s, acc =>
    match s with
    | [] => [acc]
    | c :: rest =>
      if sep.isPrefixOf s then acc :: split_go sep fuel (s.drop sep.length) []
      else split_go sep fuel rest (acc ++ [c])

/-- JavaScript's `s.split(sep)` for a non-empty `sep`. -/
def js_split (s sep : String) : List String :=
  (split_go sep.toList s.toList.length s.toList []).map List.asString

/-- `audioUrl.split("/shows/").pop().split("/")[0]` (src/main.ts line 45):
the show id derived from a webhook payload's `audioUrl`.  `pop()` on the
result of `split` is its last element (a `split` result is never empty),
and `[0]` is its first. -/
def show_id (audioUrl : String) : String :=
  ((js_split ((js_split audioUrl "/shows/").getLastD "") "/").headD "")

/-- The maximal prefix of `s` before its first `/` (all of `s` when there
is none). -/
def first_segment (s : String) : String :=
  (s.toList.takeWhile (fun c => c != '/')).asString

/-- The possible shapes of a webhook `POST /` body as far as the handler
(src/main.ts lines 42-58) can distinguish them: the body fails to parse as
JSON, or it parses but `body.audioUrl` is missing or not a string (so
`.split` throws a `TypeError`), or it has a string `audioUrl`. -/
inductive WebhookBody where
  | unparsable : WebhookBody
  | noAudio : WebhookBody
  | audio (url : String) : WebhookBody

/-- An HTTP response, reduced to what the claims inspect: the status code
and whether the response carries a body (`c.body(null, 204)` does not,
`c.json(...)` does). -/
structure HttpResp where
  status : ℕ
  hasBody : Bool
deriving DecidableEq

/-- The webhook handler `app.post("")` (src/main.ts lines 42-58): derive
the show id from `audioUrl`, set its timestamp to `Date.now()` (the input
`now`), answer `204` with no body; any thrown error is caught and answered
with a `500` JSON body, leaving the generation map untouched.  The handler
performs no refetch, so its response never depends on upstream. -/
def handle_webhook (gens : GenMap) (now : ℕ) : WebhookBody → HttpResp × GenMap
  | .unparsable => (⟨500, true⟩, gens)
  | .noAudio => (⟨500, true⟩, gens)
  | .audio url => (⟨204, false⟩, bump gens (show_id url) now)

/-- A feed episode, reduced to the fields the routes inspect (`id` and
`slug` for the single-episode lookup; `title` stands for the remaining
payload). -/
structure Episode where
  id : String
  slug : String
  title : String
deriving DecidableEq

/-- A fetched feed (the Resource Fetcher's successful result): its title
and ordered item list. -/
structure Feed where
  title : String
  items : List Episode
deriving DecidableEq

/-- The JSON body built by the `GET /:id` handler (src/main.ts lines
165-176); the nondeterministic `_debug` block is omitted as a
non-semantic diagnostic. -/
structure PageResponse where
  title : String
  items : List Episode
  page : ℕ
  limit : ℕ
  total_items : ℕ
deriving DecidableEq

/-- The response the `GET /:id` handler computes from a fetched feed and a
parsed query (src/main.ts lines 163-176). -/
def mk_page_response (feed : Feed) (q : PQ) : PageResponse :=
  { title := feed.title
    items := paginate feed.items q.page q.limit
    page := q.page
    limit := q.limit
    total_items := feed.items.length }

/-- The Web Cache storage the hono `cache` middleware uses: a stored
response per (cache name, request URL), the URL being the show id path
plus the query string. -/
abbrev CacheStore := String → String → PQ → Option PageResponse

/-- Outcome of a `GET /:id` request: a JSON page response, or the
upstream error relayed by `if (error) return c.json(error)`. -/
inductive GetOutcome where
  | ok (r : PageResponse) : GetOutcome
  | upstreamError : GetOutcome
deriving DecidableEq

/-- The cached `GET /:id` route (src/main.ts lines 142-181): the cache
middleware opens the named cache `cacheName id (current gens id)` and
matches the request URL (id + query); on a hit the stored response is
returned as-is and the handler never runs; on a miss the handler fetches
the feed (`fetched` is the Resource Fetcher's result), paginates it, and
the middleware stores the handler's response under the same
(name, URL). -/
def handle_get (gens : GenMap) (store : CacheStore) (id : String) (q : PQ)
    (fetched : Option Feed) : GetOutcome × CacheStore :=
  let cname := cacheName id (current gens id)
  match store cname id q with
  | some r => (.ok r, store)
  | none =>
    match fetched with
    | none => (.upstreamError, store)
    | some feed =>
      let resp := mk_page_response feed q
      (.ok resp,
       fun cn i p => if cn = cname ∧ i = id ∧ p = q then some resp else store cn i p)

/-- Response of the direct invalidation route `POST /:id` (src/main.ts
lines 61-77): the relayed upstream error JSON, or the
`cache_cleared` confirmation naming the feed. -/
inductive PostIdResp where
  | errorJson : PostIdResp
  | refreshed (title : String) : PostIdResp
deriving DecidableEq

/-- The direct invalidation handler `app.post("/:id")` (src/main.ts lines
61-77): the timestamp is set to `Date.now()` (the input `now`) first;
then the feed is refetched to rewarm the cache, and a fetch error is
relayed — without undoing the already-applied bump. -/
def handle_post_id (gens : GenMap) (id : String) (now : ℕ)
    (fetched : Option Feed) : PostIdResp × GenMap :=
  let gens' := bump gens id now
  match fetched with
  | none => (.errorJson, gens')
  | some feed => (.refreshed feed.title, gens')

/-- The codomain of JavaScript's `Number(x)` coercion that
`z.coerce.number()` applies to a query-string value: `NaN` or a (float,
hence rational) number. -/
inductive JsNum where
  | nan : JsNum
  | num (x : ℚ) : JsNum

/-- `page: z.coerce.number().min(1).default(1)` (src/main.ts line 29):
an absent parameter defaults to 1; `NaN` fails zod's number type check;
otherwise the sole constraint is `1 ≤ x` — there is no integrality
check. -/
def parse_page : Option JsNum → Option ℚ
  | none => some 1
  | some .nan => none
  | some (.num x) => if 1 ≤ x then some x else none

/-- `limit: z.coerce.number().positive().default(10)` (src/main.ts line
30): an absent parameter defaults to 10; `NaN` fails the type check;
otherwise the sole constraint is `0 < x` — no integrality check. -/
def parse_limit : Option JsNum → Option ℚ
  | none => some 10
  | some .nan => none
  | some (.num x) => if 0 < x then some x else none

/-- `pagination_schema.parse(c.req.query())` (src/main.ts lines 28-31,
157): both fields must validate. -/
def pagination_parse (page limit : Option JsNum) : Option (ℚ × ℚ) :=
  match parse_page page, parse_limit limit with
  | some p, some l => some (p, l)
  | _, _ => none

/-- Outcome of query validation in the `GET /:id` handler: a `ZodError`
is answered with status 400 (src/main.ts line 178), otherwise the parsed
pair is used. -/
inductive QueryOutcome where
  | bad400 : QueryOutcome
  | ok (page limit : ℚ) : QueryOutcome
deriving DecidableEq

def validate_query (page limit : Option JsNum) : QueryOutcome :=
  match pagination_parse page limit with
  | none => .bad400
  | some (p, l) => .ok p l

/-- The predicate of the single-episode lookup (src/main.ts lines
202-204): item id or slug equals the path parameter. -/
def matches_episode (x : String) (e : Episode) : Bool :=
  e.id == x || e.slug == x

/-- The single-episode route `app.get("/:id/:id_or_slug")` (src/main.ts
lines 190-216): it re-enters the app with the feed URL stripped of the
last path segment and of any query string, so the internal `GET /:id`
response carries the default page (page 1, limit 10); the episode is then
searched with `find` in that response's `items`.  `feed` is the feed that
internal request serves; a missing match is answered 404. -/
def handle_episode (feed : Feed) (x : String) : Option Episode :=
  (mk_page_response feed ⟨1, 10⟩).items.find? (matches_episode x)

/-- An episode whose id, slug and title coincide, for concrete test data. -/
def mk_ep (s : String) : Episode := ⟨s, s, s⟩

/-- A concrete two-episode feed. -/
def two_item_feed : Feed := ⟨"Show", [mk_ep "episode-1", mk_ep "episode-2"]⟩

/-- A concrete eleven-episode feed (one more than the default page size). -/
def sample_feed_11 : Feed :=
  ⟨"Sample Show",
   [mk_ep "episode-1", mk_ep "episode-2", mk_ep "episode-3", mk_ep "episode-4",
    mk_ep "episode-5", mk_ep "episode-6", mk_ep "episode-7", mk_ep "episode-8",
    mk_ep "episode-9", mk_ep "episode-10", mk_ep "episode-11"]⟩

/-- A generation map with no entries (service start). -/
def empty_gens : GenMap := fun _ => none

/-- A cache with no stored responses. -/
def empty_store : CacheStore := fun _ _ _ => none

lemma to_dec_go_eq_digits :
    ∀ (fuel n : ℕ), n < fuel → 0 < n →
      to_dec_go fuel n = ((Nat.digits 10 n).map Nat.digitChar).reverse := by
  intro fuel
  induction fuel with
  | zero => intro n h; omega
  | succ fuel ih =>
    intro n hlt hpos
    by_cases h10 : n < 10
    · rw [to_dec_go, if_pos h10,
        Nat.digits_of_lt 10 n (Nat.pos_iff_ne_zero.mp hpos) h10]
      simp
    · have hdivpos : 0 < n / 10 := Nat.div_pos (le_of_not_lt h10) (by norm_num)
      have hdivlt : n / 10 < fuel := by
        have : n / 10 < n := Nat.div_lt_self hpos (by norm_num)
        omega
      rw [to_dec_go, if_neg h10, ih (n / 10) hdivlt hdivpos,
        Nat.digits_def' (by norm_num : (1:ℕ) < 10) hpos]
      simp

lemma digitChar_inj_of_lt :
    ∀ a, a < 10 → ∀ b, b < 10 → Nat.digitChar a = Nat.digitChar b → a = b := by
  decide

lemma map_digitChar_inj :
    ∀ (l₁ l₂ : List ℕ), (∀ x ∈ l₁, x < 10) → (∀ x ∈ l₂, x < 10) →
      l₁.map Nat.digitChar = l₂.map Nat.digitChar → l₁ = l₂ := by
  intro l₁
  induction l₁ with
  | nil =>
    intro l₂ _ _ h
    cases l₂ with
    | nil => rfl
    | cons b bs => simp at h
  | cons a as ih =>
    intro l₂ h₁ h₂ h
    cases l₂ with
    | nil => simp at h
    | cons b bs =>
      simp only [List.map_cons, List.cons.injEq] at h
      have hab : a = b :=
        digitChar_inj_of_lt a (h₁ a (by simp)) b (h₂ b (by simp)) h.1
      have hrest : as = bs :=
        ih bs (fun x hx => h₁ x (by simp [hx])) (fun x hx => h₂ x (by simp [hx])) h.2
      rw [hab, hrest]

lemma to_dec_repr_inj :
    ∀ m n : ℕ, to_dec_go (m + 1) m = to_dec_go (n + 1) n → m = n := by
  have key : ∀ n : ℕ, 0 < n →
      to_dec_go (n + 1) n = ((Nat.digits 10 n).map Nat.digitChar).reverse :=
    fun n h => to_dec_go_eq_digits (n + 1) n (by omega) h
  have zero_case : ∀ n : ℕ, 0 < n → to_dec_go 1 0 ≠ to_dec_go (n + 1) n := by
    intro n hn hcontra
    rw [key n hn] at hcontra
    have h0 : to_dec_go 1 0 = [Nat.digitChar 0] := by decide
    rw [h0] at hcontra
    have hrev : (Nat.digits 10 n).map Nat.digitChar = [Nat.digitChar 0] := by
      have := congrArg List.reverse hcontra
      simpa using this.symm
    have hd : Nat.digits 10 n = [0] := by
      apply map_digitChar_inj _ [0]
      · intro x hx; exact Nat.digits_lt_base (by norm_num) hx
      · intro x hx; simp at hx; omega
      · simpa using hrev
    have : n = Nat.ofDigits 10 [0] := by
      rw [← hd, Nat.ofDigits_digits]
    simp [Nat.ofDigits] at this
    omega
  intro m n h
  rcases Nat.eq_zero_or_pos m with hm | hm
  · rcases Nat.eq_zero_or_pos n with hn | hn
    · omega
    · subst hm; exact absurd h (zero_case n hn)
  · rcases Nat.eq_zero_or_pos n with hn | hn
    · subst hn; exact absurd h.symm (zero_case m hm)
    · rw [key m hm, key n hn] at h
      have hmap := List.reverse_injective h
      have hdig : Nat.digits 10 m = Nat.digits 10 n :=
        map_digitChar_inj _ _
          (fun x hx => Nat.digits_lt_base (by norm_num) hx)
          (fun x hx => Nat.digits_lt_base (by norm_num) hx) hmap
      exact Nat.digits_inj_iff.mp hdig

lemma cacheName_ts_inj (id : String) (t₁ t₂ : ℕ)
    (h : cacheName id t₁ = cacheName id t₂) : t₁ = t₂ := by
  have hdata := congrArg String.data h
  simp only [cacheName, nat_to_string, String.data_append, List.append_assoc] at hdata
  have h₁ := List.append_cancel_left hdata
  have h₂ : (to_dec_go (t₁ + 1) t₁).asString.data = (to_dec_go (t₂ + 1) t₂).asString.data :=
    List.append_cancel_left h₁
  exact to_dec_repr_inj t₁ t₂ h₂

lemma split_go_ne_nil (sep : List Char) :
    ∀ (fuel : ℕ) (s acc : List Char), split_go sep fuel s acc ≠ [] := by
  intro fuel
  induction fuel with
  | zero => intro s acc; simp [split_go]
  | succ fuel ih =>
    intro s acc
    match s with
    | [] => simp [split_go]
    | c :: rest =>
      rw [split_go]
      by_cases h : sep.isPrefixOf (c :: rest)
      · simp [h]
      · simpa [h] using ih rest (acc ++ [c])

lemma js_split_ne_nil (s sep : String) : js_split s sep ≠ [] := by
  simpa [js_split] using split_go_ne_nil sep.toList s.toList.length s.toList []

lemma split_go_headD_slash :
    ∀ (fuel : ℕ) (s acc : List Char),
      (split_go ['/'] fuel s acc).headD [] = acc ++ s.takeWhile (fun c => c != '/')
        ∨ fuel < s.length := by
  intro fuel
  induction fuel with
  | zero =>
    intro s acc
    match s with
    | [] => left; simp [split_go]
    | c :: rest => right; simp
  | succ fuel ih =>
    intro s acc
    match s with
    | [] => left; simp [split_go]
    | c :: rest =>
      rw [split_go]
      by_cases h : List.isPrefixOf ['/'] (c :: rest)
      · left
        have hc : '/' = c := by simpa [List.isPrefixOf] using h
        simp [h, ← hc, List.takeWhile_cons]
      · have hc : c ≠ '/' := by
          intro hc; apply h; simp [List.isPrefixOf, hc]
        rcases ih rest (acc ++ [c]) with hgood | hbad
        · left
          simp only [if_neg h]
          rw [hgood]
          simp [List.takeWhile_cons, hc]
        · right; simpa using Nat.succ_lt_succ hbad

/-- `s.split("/")[0]` is the prefix of `s` before its first `/`. -/
lemma js_split_slash_head (s : String) :
    (js_split s "/").headD "" = first_segment s := by
  have hts : "/".toList = ['/'] := rfl
  rw [js_split, hts]
  rcases split_go_headD_slash s.toList.length s.toList [] with hgood | hbad
  · have hne := split_go_ne_nil ['/'] s.toList.length s.toList []
    match hsg : split_go ['/'] s.toList.length s.toList [] with
    | [] => exact absurd hsg hne
    | seg :: more =>
      have hseg : seg = s.toList.takeWhile (fun c => c != '/') := by
        rw [hsg] at hgood
        simpa using hgood
      simp [first_segment, hseg]
  · omega

lemma bump_self (gens : GenMap) (id : String) (now : ℕ) :
    current (bump gens id now) id = now := by
  simp [current, bump]

lemma bump_other (gens : GenMap) (id r : String) (now : ℕ) (h : r ≠ id) :
    bump gens id now r = gens r := by
  simp [bump, h]

/-- C2: for one resource and an unchanged generation map, the cache key
computed for any two valid queries is the same — the `cacheName` callback
reads only the show id and its current timestamp, never `page`/`limit`. -/
theorem key_for_query_independent (gens : GenMap) (id : String) (q₁ q₂ : PQ)
    (h₁p : 1 ≤ q₁.page) (h₁l : 0 < q₁.limit)
    (h₂p : 1 ≤ q₂.page) (h₂l : 0 < q₂.limit) :
    key_for gens id q₁ = key_for gens id q₂ := rfl

theorem key_for_query_independent_witness :
    (1 ≤ (1 : ℕ)) ∧ (0 < (10 : ℕ)) ∧ (1 ≤ (3 : ℕ)) ∧ (0 < (50 : ℕ)) ∧
      key_for empty_gens "my-show" ⟨1, 10⟩ = key_for empty_gens "my-show" ⟨3, 50⟩ :=
  ⟨by decide, by decide, by decide, by decide,
   key_for_query_independent empty_gens "my-show" ⟨1, 10⟩ ⟨3, 50⟩
     (by decide) (by decide) (by decide) (by decide)⟩

/-- C3 counterexample: a second `bump` whose `Date.now()` reading equals
the stored timestamp (two webhook deliveries in the same millisecond)
leaves the marker exactly where it was — not a strict increase. -/
theorem bump_same_clock_counterexample :
    current (bump (bump empty_gens "x" 5) "x" 5) "x"
      = current (bump empty_gens "x" 5) "x"
    ∧ ¬ current (bump empty_gens "x" 5) "x"
        < current (bump (bump empty_gens "x" 5) "x" 5) "x" := by
  decide

/-- C3 (amended): before any bump an absent entry reads as marker 0; a
bump sets the marker to the supplied clock reading, so it strictly
increases the marker whenever the reading exceeds the current marker and
never decreases it while clock readings stay at or above the stored
marker; two bumps within one clock millisecond leave it unchanged. -/
theorem generation_marker_clocked (gens : GenMap) (id : String) (now : ℕ) :
    (gens id = none → current gens id = 0)
    ∧ current (bump gens id now) id = now
    ∧ (current gens id ≤ now → current gens id ≤ current (bump gens id now) id)
    ∧ (current gens id < now → current gens id < current (bump gens id now) id) := by
  refine ⟨fun h => by simp [current, h], bump_self gens id now, ?_, ?_⟩
  · intro h; rw [bump_self]; exact h
  · intro h; rw [bump_self]; exact h

theorem generation_marker_clocked_witness :
    current (bump empty_gens "x" 5) "x" = 5
    ∧ current empty_gens "x" < current (bump empty_gens "x" 5) "x" :=
  ⟨(generation_marker_clocked empty_gens "x" 5).2.1,
   (generation_marker_clocked empty_gens "x" 5).2.2.2 (by decide)⟩

/-- C4 counterexample: a malformed webhook body is answered with status
500 (the handler's catch-all), a server error — not the claimed 400. -/
theorem webhook_malformed_counterexample :
    (handle_webhook empty_gens 5 .unparsable).1.status = 500
    ∧ (handle_webhook empty_gens 5 .unparsable).1.status ≠ 400
    ∧ (handle_webhook empty_gens 5 .noAudio).1.status = 500
    ∧ (handle_webhook empty_gens 5 .unparsable).2 = empty_gens := by
  exact ⟨rfl, by decide, rfl, rfl⟩

/-- C4 (amended): a webhook body that fails to parse, or whose
`audioUrl` is missing/not a string, throws inside the `try`, is caught,
and is answered with a 500 server error JSON; no generation marker is
bumped — the generation map is returned untouched. -/
theorem webhook_malformed_500_no_bump (gens : GenMap) (now : ℕ) :
    handle_webhook gens now .unparsable = (⟨500, true⟩, gens)
    ∧ handle_webhook gens now .noAudio = (⟨500, true⟩, gens) :=
  ⟨rfl, rfl⟩

/-- C5: a webhook carrying a string `audioUrl` bumps exactly the derived
show's marker — every other resource's entry is untouched — and is
answered 204 with no body.  The handler performs no warm refetch at all,
so the response cannot depend on any refetch outcome. -/
theorem webhook_bumps_only_derived (gens : GenMap) (now : ℕ) (url r : String)
    (h : r ≠ show_id url) :
    (handle_webhook gens now (.audio url)).1 = ⟨204, false⟩
    ∧ (handle_webhook gens now (.audio url)).2 (show_id url) = some now
    ∧ (handle_webhook gens now (.audio url)).2 r = gens r := by
  refine ⟨rfl, ?_, ?_⟩
  · simp [handle_webhook, bump]
  · exact bump_other gens (show_id url) r now h

theorem webhook_bumps_only_derived_witness :
    ("other-show" ≠ show_id "https://assets.pippa.io/shows/test-id/file.m4a")
    ∧ ((handle_webhook (bump empty_gens "other-show" 3) 7
          (.audio "https://assets.pippa.io/shows/test-id/file.m4a")).1 = ⟨204, false⟩
        ∧ (handle_webhook (bump empty_gens "other-show" 3) 7
            (.audio "https://assets.pippa.io/shows/test-id/file.m4a")).2
            (show_id "https://assets.pippa.io/shows/test-id/file.m4a") = some 7
        ∧ (handle_webhook (bump empty_gens "other-show" 3) 7
            (.audio "https://assets.pippa.io/shows/test-id/file.m4a")).2 "other-show"
            = bump empty_gens "other-show" 3 "other-show") :=
  ⟨by decide,
   webhook_bumps_only_derived (bump empty_gens "other-show" 3) 7
     "https://assets.pippa.io/shows/test-id/file.m4a" "other-show" (by decide)⟩

/-- C6 counterexample: two direct invalidations of `"x"` whose
`Date.now()` readings fall in the same millisecond (both 5): after the
second one — whose warm refetch also fails — the cache-key computation is
identical to the pre-invalidation key, and the marker did not advance. -/
theorem post_id_same_clock_counterexample :
    key_for (handle_post_id (handle_post_id empty_gens "x" 5 none).2 "x" 5 none).2
        "x" ⟨1, 10⟩
      = key_for (handle_post_id empty_gens "x" 5 none).2 "x" ⟨1, 10⟩
    ∧ current (handle_post_id (handle_post_id empty_gens "x" 5 none).2 "x" 5 none).2 "x"
      = current (handle_post_id empty_gens "x" 5 none).2 "x" := by
  decide

/-- C6 (amended): `POST /:id` applies the bump before the warm refetch,
so the new map is `bump gens id now` whatever the fetch result — a fetch
error is relayed without undoing the bump — and whenever the clock
reading differs from the pre-invalidation marker (in particular whenever
the clock advanced), every later cache-key computation for `id` differs
from every pre-invalidation key. -/
theorem post_id_bump_survives_fetch_error (gens : GenMap) (id : String) (now : ℕ)
    (fetched : Option Feed) (h : current gens id ≠ now) :
    (handle_post_id gens id now fetched).2 = bump gens id now
    ∧ current (handle_post_id gens id now fetched).2 id = now
    ∧ ∀ q q' : PQ,
        key_for (handle_post_id gens id now fetched).2 id q ≠ key_for gens id q' := by
  have h2 : (handle_post_id gens id now fetched).2 = bump gens id now := by
    cases fetched <;> rfl
  refine ⟨h2, by rw [h2, bump_self], ?_⟩
  intro q q' hkey
  rw [h2] at hkey
  have : current (bump gens id now) id = current gens id :=
    cacheName_ts_inj id _ _ hkey
  rw [bump_self] at this
  exact h this.symm

theorem post_id_bump_survives_fetch_error_witness :
    current empty_gens "x" ≠ 5
    ∧ key_for (handle_post_id empty_gens "x" 5 none).2 "x" ⟨1, 10⟩
        ≠ key_for empty_gens "x" ⟨2, 5⟩ :=
  ⟨by decide,
   (post_id_bump_survives_fetch_error empty_gens "x" 5 none (by decide)).2.2 ⟨1, 10⟩ ⟨2, 5⟩⟩

/-- C7: for `page ≥ 1` and `limit > 0`, `paginate` is the contiguous
slice `items[(page-1)*limit : (page-1)*limit + limit]` clamped to the
list's bounds — expressed as drop-then-take, which preserves the order of
`items` — with at most `limit` elements, and it is empty (a value, never
an error: the function is total) whenever the start index is at or beyond
the item count. -/
theorem paginate_contiguous_slice {α : Type} (items : List α) (page limit : ℕ)
    (hp : 1 ≤ page) (hl : 0 < limit) :
    paginate items page limit = (items.drop ((page - 1) * limit)).take limit
    ∧ (paginate items page limit).length ≤ limit
    ∧ (items.length ≤ (page - 1) * limit → paginate items page limit = []) := by
  have heq : paginate items page limit = (items.drop ((page - 1) * limit)).take limit := by
    simp [paginate, list_slice]
  refine ⟨heq, ?_, ?_⟩
  · rw [heq]
    simpa using List.length_take_le limit (items.drop ((page - 1) * limit))
  · intro hle
    rw [heq, List.drop_eq_nil_of_le hle, List.take_nil]

theorem paginate_contiguous_slice_witness :
    (1 ≤ 3) ∧ (0 < 2)
    ∧ (paginate [10, 20, 30, 40, 50] 3 2 = (([10, 20, 30, 40, 50].drop 4).take 2)
        ∧ (paginate [10, 20, 30, 40, 50] 3 2).length ≤ 2
        ∧ ([10, 20, 30, 40, 50].length ≤ 4 → paginate [10, 20, 30, 40, 50] 3 2 = [])) :=
  ⟨by decide, by decide, paginate_contiguous_slice [10, 20, 30, 40, 50] 3 2 (by decide) (by decide)⟩

/-- C8 counterexample: the schema uses `z.coerce.number()` with no
integrality check, so the non-integer query `page=1.5` (JavaScript
coerces `"1.5"` to the float `1.5 = 3/2`) passes validation with the
default limit — it is not rejected with a 400. -/
theorem query_validation_counterexample :
    validate_query (some (.num (3 / 2))) none = .ok (3 / 2) 10
    ∧ validate_query (some (.num (3 / 2))) none ≠ .bad400 := by
  have h : validate_query (some (.num (3 / 2))) none = .ok (3 / 2) 10 := by
    norm_num [validate_query, pagination_parse, parse_page, parse_limit]
  exact ⟨h, by rw [h]; intro hc; cases hc⟩

/-- C8 (amended): `page` defaults to 1 and `limit` to 10 when absent; a
non-numeric value (`Number` coercion yields `NaN`) fails zod's number
type check, `page < 1` fails `.min(1)` and `limit ≤ 0` fails
`.positive()`, each answered with a 400 validation error; but any
numeric value satisfying those range checks is accepted — including
non-integers, which are silently passed through (the schema has no
`.int()` step). -/
theorem query_validation_ranges (p l : Option JsNum) (x y : ℚ) :
    validate_query none none = .ok 1 10
    ∧ validate_query (some .nan) l = .bad400
    ∧ validate_query p (some .nan) = .bad400
    ∧ (x < 1 → validate_query (some (.num x)) l = .bad400)
    ∧ (y ≤ 0 → validate_query p (some (.num y)) = .bad400)
    ∧ (1 ≤ x → 0 < y →
        validate_query (some (.num x)) (some (.num y)) = .ok x y) := by
  refine ⟨rfl, rfl, ?_, ?_, ?_, ?_⟩
  · match p with
    | none => rfl
    | some .nan => rfl
    | some (.num z) =>
      by_cases hz : 1 ≤ z
      · simp [validate_query, pagination_parse, parse_page, parse_limit, if_pos hz]
      · simp [validate_query, pagination_parse, parse_page, parse_limit, if_neg hz]
  · intro hx
    have hpage : parse_page (some (.num x)) = none := by
      simp only [parse_page, if_neg (not_le.mpr hx)]
    simp [validate_query, pagination_parse, hpage]
  · intro hy
    have hlimit : parse_limit (some (.num y)) = none := by
      simp only [parse_limit, if_neg (not_lt.mpr hy)]
    match p with
    | none => simp [validate_query, pagination_parse, hlimit, parse_page]
    | some .nan => rfl
    | some (.num z) =>
      by_cases hz : 1 ≤ z
      · simp [validate_query, pagination_parse, parse_page, hlimit, if_pos hz]
      · simp [validate_query, pagination_parse, parse_page, hlimit, if_neg hz]
  · intro hx hy
    simp [validate_query, pagination_parse, parse_page, parse_limit, if_pos hx, if_pos hy]

theorem query_validation_ranges_witness :
    ((1 : ℚ) / 2 < 1)
    ∧ validate_query (some (.num (1 / 2))) none = .bad400
    ∧ ((1 : ℚ) ≤ 2) ∧ ((0 : ℚ) < 3)
    ∧ validate_query (some (.num 2)) (some (.num 3)) = .ok 2 3 :=
  ⟨by norm_num,
   (query_validation_ranges (some (.num (1 / 2))) none (1 / 2) 0).2.2.2.1 (by norm_num),
   by norm_num, by norm_num,
   (query_validation_ranges (some (.num 2)) (some (.num 3)) 2 3).2.2.2.2.2
     (by norm_num) (by norm_num)⟩

/-- C9: the single-episode route searches only the internal feed
response's items, which carry the default page (the query-less internal
request parses to page 1, limit 10), i.e. the first ten feed items; when
no match is among those ten, the route answers 404 (`none`) even if a
matching episode exists later in the full feed. -/
theorem episode_lookup_first_ten (feed : Feed) (x : String) :
    validate_query none none = .ok 1 10
    ∧ handle_episode feed x = (feed.items.take 10).find? (matches_episode x)
    ∧ ((∀ e ∈ feed.items.take 10, matches_episode x e = false) →
        handle_episode feed x = none) := by
  have heq : handle_episode feed x = (feed.items.take 10).find? (matches_episode x) := by
    simp [handle_episode, mk_page_response, paginate, list_slice]
  refine ⟨rfl, heq, ?_⟩
  intro hnone
  rw [heq, List.find?_eq_none]
  intro e he
  simp [hnone e he]

theorem episode_lookup_first_ten_witness :
    (mk_ep "episode-11" ∈ sample_feed_11.items)
    ∧ (∀ e ∈ sample_feed_11.items.take 10, matches_episode "episode-11" e = false)
    ∧ handle_episode sample_feed_11 "episode-11" = none :=
  ⟨by decide,
   by decide,
   (episode_lookup_first_ten sample_feed_11 "episode-11").2.2 (by decide)⟩

/-- C10: when `audioUrl` does not contain the separator `"/shows/"` —
equivalently, `split` returns the single segment `[audioUrl]` — the
derivation still succeeds: the handler bumps the generation entry keyed
by the prefix of `audioUrl` before its first `/` (for an ordinary URL,
the scheme `"https:"`) and answers 204 rather than rejecting the shape. -/
theorem webhook_no_separator_bumps_scheme (gens : GenMap) (now : ℕ) (url : String)
    (h : js_split url "/shows/" = [url]) :
    show_id url = first_segment url
    ∧ (handle_webhook gens now (.audio url)).1 = ⟨204, false⟩
    ∧ (handle_webhook gens now (.audio url)).2 (first_segment url) = some now := by
  have hs : show_id url = first_segment url := by
    rw [show_id, h]
    simpa [List.getLastD] using js_split_slash_head url
  refine ⟨hs, rfl, ?_⟩
  simp only [handle_webhook, hs, bump_self]
  rw [← hs]
  simp [bump]

theorem webhook_no_separator_bumps_scheme_witness :
    js_split "https://media.example.com/audio/ep1.mp3" "/shows/"
      = ["https://media.example.com/audio/ep1.mp3"]
    ∧ first_segment "https://media.example.com/audio/ep1.mp3" = "https:"
    ∧ (show_id "https://media.example.com/audio/ep1.mp3"
          = first_segment "https://media.example.com/audio/ep1.mp3"
        ∧ (handle_webhook empty_gens 9
            (.audio "https://media.example.com/audio/ep1.mp3")).1 = ⟨204, false⟩
        ∧ (handle_webhook empty_gens 9
            (.audio "https://media.example.com/audio/ep1.mp3")).2
            (first_segment "https://media.example.com/audio/ep1.mp3") = some 9) :=
  ⟨by decide, by decide,
   webhook_no_separator_bumps_scheme empty_gens 9
     "https://media.example.com/audio/ep1.mp3" (by decide)⟩

/-- C1 counterexample: with an empty cache and generation 0, a
`GET /x?page=1&limit=1` against a two-episode feed stores — under the
generation-derived cache name and that request's URL — a response whose
`items` are the one-element page slice, not the unpaginated feed; and a
repeat of the same request is answered from that stored entry with no
upstream fetch at all (`fetched = none`), returning the stored per-page
slice rather than re-slicing a stored full list. -/
theorem cached_value_is_page_slice_counterexample :
    (handle_get empty_gens empty_store "x" ⟨1, 1⟩ (some two_item_feed)).2
        (cacheName "x" 0) "x" ⟨1, 1⟩
      = some (mk_page_response two_item_feed ⟨1, 1⟩)
    ∧ (mk_page_response two_item_feed ⟨1, 1⟩).items ≠ two_item_feed.items
    ∧ (handle_get empty_gens
        ((handle_get empty_gens empty_store "x" ⟨1, 1⟩ (some two_item_feed)).2)
        "x" ⟨1, 1⟩ none).1
      = .ok (mk_page_response two_item_feed ⟨1, 1⟩) := by
  decide

/-- C1 (amended): the cache key of a `GET /:id` entry combines the
generation-derived cache name with the full request URL — page and limit
included — and the value stored under it is the already-paginated
response for that exact query.  On a miss with a successful fetch the
paginated response is returned and stored under that key, entries for
other queries are untouched, and a subsequent request with the same id,
query and generation is answered by returning that stored per-page
response as-is, with no re-pagination and no upstream fetch. -/
theorem get_cache_stores_paginated_per_url (gens : GenMap) (store : CacheStore)
    (id : String) (q q' : PQ) (feed : Feed) (fetched' : Option Feed)
    (hmiss : store (key_for gens id q) id q = none) :
    (handle_get gens store id q (some feed)).1 = .ok (mk_page_response feed q)
    ∧ (handle_get gens store id q (some feed)).2 (key_for gens id q) id q
        = some (mk_page_response feed q)
    ∧ (q' ≠ q → (handle_get gens store id q (some feed)).2 (key_for gens id q) id q'
        = store (key_for gens id q) id q')
    ∧ handle_get gens ((handle_get gens store id q (some feed)).2) id q fetched'
        = (.ok (mk_page_response feed q),
           (handle_get gens store id q (some feed)).2) := by
  have hk : key_for gens id q = cacheName id (current gens id) := rfl
  rw [hk] at hmiss
  have h1 : handle_get gens store id q (some feed)
      = (.ok (mk_page_response feed q),
         fun cn i p =>
           if cn = cacheName id (current gens id) ∧ i = id ∧ p = q
           then some (mk_page_response feed q) else store cn i p) := by
    simp [handle_get, hmiss]
  refine ⟨by rw [h1], ?_, ?_, ?_⟩
  · rw [h1, hk]; simp
  · intro hne
    rw [h1, hk]
    simp [hne]
  · rw [h1]
    simp [handle_get]

theorem get_cache_stores_paginated_per_url_witness :
    empty_store (key_for empty_gens "x" ⟨1, 1⟩) "x" ⟨1, 1⟩ = none
    ∧ ((handle_get empty_gens empty_store "x" ⟨1, 1⟩ (some two_item_feed)).1
          = .ok (mk_page_response two_item_feed ⟨1, 1⟩)
        ∧ (handle_get empty_gens empty_store "x" ⟨1, 1⟩ (some two_item_feed)).2
            (key_for empty_gens "x" ⟨1, 1⟩) "x" ⟨1, 1⟩
          = some (mk_page_response two_item_feed ⟨1, 1⟩)
        ∧ ((⟨2, 1⟩ : PQ) ≠ ⟨1, 1⟩ →
            (handle_get empty_gens empty_store "x" ⟨1, 1⟩ (some two_item_feed)).2
              (key_for empty_gens "x" ⟨1, 1⟩) "x" ⟨2, 1⟩
            = empty_store (key_for empty_gens "x" ⟨1, 1⟩) "x" ⟨2, 1⟩)
        ∧ handle_get empty_gens
            ((handle_get empty_gens empty_store "x" ⟨1, 1⟩ (some two_item_feed)).2)
            "x" ⟨1, 1⟩ none
          = (.ok (mk_page_response two_item_feed ⟨1, 1⟩),
             (handle_get empty_gens empty_store "x" ⟨1, 1⟩ (some two_item_feed)).2)) :=
  ⟨rfl,
   get_cache_stores_paginated_per_url empty_gens empty_store "x" ⟨1, 1⟩ ⟨2, 1⟩
     two_item_feed none rfl⟩
